import Mathlib

set_option autoImplicit false

/-
Verification of the asynchronous host/device transfer substrate described in
spec.md, against the behaviour pinned by the tests in
src/tensorflow/lite/c/c_api_internal.h (StreamExecutorGpuClientTest and
GpuTopology tests).  The implementations of CopyToDeviceStream, the transfer
manager, the async buffer handles, the callback registry and GpuTopology are
not part of src/, so they are modelled from the spec, with constants (such as
the overflow message) pinned by the tests.
-/

namespace XlaTransfer

/-- Modelled from the spec: a PjRtChunk is an immutable owned block of bytes,
one increment of a larger transfer.  Bytes are modelled as natural numbers. -/
structure PjRtChunk where
  bytes : List Nat
  deriving Repr, DecidableEq

/-- Size in bytes of a chunk. -/
def PjRtChunk.size (c : PjRtChunk) : Nat := c.bytes.length

/-- Modelled from the spec: a TransferDestination (the CopyToDeviceStream
destination) is a fixed-capacity sink accepting ordered chunks; it tracks the
cumulative bytes written and owns a backing buffer of capacity many bytes. -/
structure TransferDestination where
  capacity_bytes : Nat
  bytes_written : Nat
  backing_buffer : List Nat
  deriving Repr, DecidableEq

/-- Overwrite the bytes of `buf` starting at offset `off` with `data`,
leaving everything before `off` and after `off + data.length` untouched. -/
def writeAt (buf : List Nat) (off : Nat) (data : List Nat) : List Nat :=
  buf.take off ++ data ++ buf.drop (off + data.length)

/-- Overflow error text produced when a chunk does not fit, in the exact form
pinned by StreamExecutorGpuClientTest.RecvErrorNoDeadLock. -/
def overflowMessage (n m k : Nat) : String :=
  "Adding chunk of size " ++ toString n ++ " would overflow buffer of size " ++
    toString m ++ " (" ++ toString k ++ " already transferred)"

/-- Message form as quoted verbatim by the specification text (section 7),
used to compare the spec wording with the message the code produces. -/
def specOverflowForm (n m k : Nat) : String :=
  "chunk of size " ++ toString n ++ " would overflow buffer of size " ++
    toString m ++ ", " ++ toString k ++ " already transferred"

/-- Modelled from the spec: AddChunk rejects, without mutating any state, a
chunk that would push bytes_written past capacity_bytes, reporting the
overflow; on success it copies the chunk bytes into the backing buffer at
offset bytes_written and advances bytes_written. -/
def TransferDestination.AddChunk (d : TransferDestination) (c : PjRtChunk) :
    TransferDestination × Except String Unit :=
  if d.capacity_bytes < d.bytes_written + c.size then
    (d, Except.error (overflowMessage c.size d.capacity_bytes d.bytes_written))
  else
    ({ d with
        bytes_written := d.bytes_written + c.size,
        backing_buffer := writeAt d.backing_buffer d.bytes_written c.bytes },
      Except.ok ())

/-- Deliver a sequence of chunks in order, stopping at the first failure. -/
def addChunks : TransferDestination → List PjRtChunk →
    TransferDestination × Except String Unit
  | d, [] => (d, Except.ok ())
  | d, c :: rest =>
    match d.AddChunk c with
    | (d', Except.ok _) => addChunks d' rest
    | (d', Except.error e) => (d', Except.error e)

/-- Total length of a chunk sequence. -/
def chunksTotal (cs : List PjRtChunk) : Nat := (cs.map PjRtChunk.size).sum

/-- Concatenation of the payloads of a chunk sequence, in call order. -/
def chunksFlat (cs : List PjRtChunk) : List Nat :=
  (cs.map PjRtChunk.bytes).flatten

/-- Does the character list `p` occur at the head of `s`? -/
def leadsWith : List Char → List Char → Bool
  | _, [] => true
  | [], _ :: _ => false
  | a :: s, b :: p => a == b && leadsWith s p

/-- Does the character list `p` occur somewhere inside `s`? -/
def containsSub : List Char → List Char → Bool
  | [], p => leadsWith [] p
  | a :: s, p => leadsWith (a :: s) p || containsSub s p

/-- Substring test on strings, via the underlying character lists. -/
def strContainsSub (s pat : String) : Bool :=
  containsSub s.toList pat.toList

theorem leadsWith_refl (l : List Char) : leadsWith l l = true := by
  induction l with
  | nil => rfl
  | cons a s ih => simp [leadsWith, ih]

theorem strContainsSub_refl (s : String) : strContainsSub s s = true := by
  unfold strContainsSub
  cases h : s.toList with
  | nil => rfl
  | cons a t =>
    have := leadsWith_refl (a :: t)
    simp [containsSub, this]

/-- Modelled from the spec: reading the device buffer back to the host
(ToLiteral) yields the bytes of the backing buffer. -/
def toLiteralBytes (d : TransferDestination) : List Nat := d.backing_buffer

theorem chunksTotal_nil : chunksTotal [] = 0 := rfl

theorem chunksTotal_cons (c : PjRtChunk) (cs : List PjRtChunk) :
    chunksTotal (c :: cs) = c.size + chunksTotal cs := by
  simp [chunksTotal]

theorem chunksFlat_cons (c : PjRtChunk) (cs : List PjRtChunk) :
    chunksFlat (c :: cs) = c.bytes ++ chunksFlat cs := by
  simp [chunksFlat]

theorem chunksTotal_take_le (cs : List PjRtChunk) (i : Nat) :
    chunksTotal (cs.take i) ≤ chunksTotal cs := by
  have h : chunksTotal (cs.take i) + chunksTotal (cs.drop i) = chunksTotal cs := by
    have hsplit : cs.take i ++ cs.drop i = cs := List.take_append_drop i cs
    calc chunksTotal (cs.take i) + chunksTotal (cs.drop i)
        = chunksTotal (cs.take i ++ cs.drop i) := by
          simp [chunksTotal]
      _ = chunksTotal cs := by rw [hsplit]
  omega

theorem chunksTotal_eq_length_flat (cs : List PjRtChunk) :
    chunksTotal cs = (chunksFlat cs).length := by
  simp only [chunksTotal, chunksFlat, List.length_flatten, List.map_map]
  rfl

/-- Main invariant of chunked delivery: starting from a destination whose
buffer splits as written prefix `done` plus free suffix `free`, a chunk
sequence that fits is fully accepted, appended in order after `done`, and
advances bytes_written by the total chunk length. -/
theorem addChunks_go (cs : List PjRtChunk) :
    ∀ (cap : Nat) (done free : List Nat),
    done.length + chunksTotal cs ≤ cap →
    done.length + free.length = cap →
    addChunks ⟨cap, done.length, done ++ free⟩ cs =
      (⟨cap, done.length + chunksTotal cs,
          (done ++ chunksFlat cs) ++ free.drop (chunksTotal cs)⟩,
        Except.ok ()) := by
  induction cs with
  | nil =>
    intro cap done free hcap hlen
    simp [addChunks, chunksTotal, chunksFlat]
  | cons c rest ih =>
    intro cap done free hcap hlen
    rw [chunksTotal_cons] at hcap
    have hn : c.size ≤ free.length := by omega
    have hnotover : ¬ (cap < done.length + c.size) := by omega
    have hwrite : writeAt (done ++ free) done.length c.bytes =
        (done ++ c.bytes) ++ free.drop c.size := by
      unfold writeAt
      rw [List.take_left]
      have hdrop : (done ++ free).drop (done.length + c.bytes.length) =
          free.drop c.bytes.length := by
        simp [List.drop_append]
      rw [hdrop]
      simp [PjRtChunk.size, List.append_assoc]
    have step : addChunks ⟨cap, done.length, done ++ free⟩ (c :: rest) =
        addChunks ⟨cap, done.length + c.size,
          (done ++ c.bytes) ++ free.drop c.size⟩ rest := by
      simp [addChunks, TransferDestination.AddChunk, hnotover, hwrite]
    rw [step, chunksTotal_cons, chunksFlat_cons]
    have hlen2 : (done ++ c.bytes).length = done.length + c.size := by
      simp [PjRtChunk.size]
    have hc2 : (done ++ c.bytes).length + chunksTotal rest ≤ cap := by omega
    have hl2 : (done ++ c.bytes).length + (free.drop c.size).length = cap := by
      simp [hlen2]
      omega
    have ihh := ih cap (done ++ c.bytes) (free.drop c.size) hc2 hl2
    rw [← hlen2, ihh]
    simp [List.append_assoc, List.drop_drop, PjRtChunk.size]
    omega

/-- C2 (counterexample): at the input pinned by the
RecvErrorNoDeadLock test (destination capacity 8, nothing transferred yet,
chunk of 40 bytes) AddChunk fails, but the failure message is not of the
form quoted by the claim, namely
"chunk of size N would overflow buffer of size M, K already transferred":
the message the code produces does not contain that text. -/
theorem addChunk_overflow_message_not_spec_form :
    ((⟨8, 0, List.replicate 8 0⟩ : TransferDestination).AddChunk
        ⟨List.replicate 40 0⟩).2 =
      Except.error (overflowMessage 40 8 0) ∧
    strContainsSub (overflowMessage 40 8 0) (specOverflowForm 40 8 0) = false :=
  ⟨rfl, by decide⟩

/-- C2 (amended): for every TransferDestination state and every chunk with
bytes_written + chunk.length > capacity_bytes, AddChunk fails without
mutating any state (the destination is returned unchanged, no bytes copied),
and the failure message states the chunk size, the destination capacity and
the bytes already transferred in the form
"Adding chunk of size N would overflow buffer of size M (K already
transferred)". -/
theorem addChunk_overflow_rejects (d : TransferDestination) (c : PjRtChunk)
    (hover : d.capacity_bytes < d.bytes_written + c.size) :
    (d.AddChunk c).1 = d ∧
    (d.AddChunk c).2 =
      Except.error (overflowMessage c.size d.capacity_bytes d.bytes_written) := by
  simp [TransferDestination.AddChunk, hover]

/-- C2 witness: the amended theorem evaluated at the RecvErrorNoDeadLock
scenario, yielding the exact message the test expects. -/
theorem addChunk_overflow_rejects_witness :
    (8 : Nat) < 0 + PjRtChunk.size ⟨List.replicate 40 0⟩ ∧
    ((⟨8, 0, List.replicate 8 0⟩ : TransferDestination).AddChunk
        ⟨List.replicate 40 0⟩).1 = ⟨8, 0, List.replicate 8 0⟩ ∧
    ((⟨8, 0, List.replicate 8 0⟩ : TransferDestination).AddChunk
        ⟨List.replicate 40 0⟩).2 =
      Except.error
        "Adding chunk of size 40 would overflow buffer of size 8 (0 already transferred)" := by
  have h := addChunk_overflow_rejects ⟨8, 0, List.replicate 8 0⟩
    ⟨List.replicate 40 0⟩ (by decide)
  exact ⟨by decide, h.1, h.2.trans (by rfl)⟩

/-- C3: for every chunk sequence whose cumulative length is at most the
destination capacity (destination fresh, buffer sized to capacity), every
prefix of the AddChunk call sequence succeeds, the bytes land in the backing
buffer in call order starting at offset 0 (so each call copied its bytes at
the bytes_written value that preceded it), and after the calls bytes_written
equals the sum of the chunk lengths delivered. -/
theorem addChunks_in_order_ok (d : TransferDestination) (cs : List PjRtChunk)
    (i : Nat)
    (hw : d.bytes_written = 0)
    (hlen : d.backing_buffer.length = d.capacity_bytes)
    (hcap : chunksTotal cs ≤ d.capacity_bytes) :
    (addChunks d (cs.take i)).2 = Except.ok () ∧
    (addChunks d (cs.take i)).1.bytes_written = chunksTotal (cs.take i) ∧
    (addChunks d (cs.take i)).1.backing_buffer =
      chunksFlat (cs.take i) ++
        d.backing_buffer.drop (chunksTotal (cs.take i)) := by
  obtain ⟨cap, bw, buf⟩ := d
  simp only at hw hlen hcap
  subst hw
  have hle : chunksTotal (cs.take i) ≤ cap :=
    le_trans (chunksTotal_take_le cs i) hcap
  have h := addChunks_go (cs.take i) cap [] buf (by simpa using hle)
    (by simpa using hlen)
  simp only [List.length_nil, List.nil_append] at h
  rw [h]
  simp

/-- C3 witness: two chunks of total length 3 into a fresh destination of
capacity 4 whose buffer holds sentinel bytes 9; both calls succeed, the bytes
appear in order at offsets 0 and 2, and bytes_written ends at 3. -/
theorem addChunks_in_order_ok_witness :
    chunksTotal [PjRtChunk.mk [1, 2], PjRtChunk.mk [3]] ≤ 4 ∧
    (addChunks ⟨4, 0, [9, 9, 9, 9]⟩
        ([PjRtChunk.mk [1, 2], PjRtChunk.mk [3]].take 2)).2 = Except.ok () ∧
    (addChunks ⟨4, 0, [9, 9, 9, 9]⟩
        ([PjRtChunk.mk [1, 2], PjRtChunk.mk [3]].take 2)).1.bytes_written = 3 ∧
    (addChunks ⟨4, 0, [9, 9, 9, 9]⟩
        ([PjRtChunk.mk [1, 2], PjRtChunk.mk [3]].take 2)).1.backing_buffer =
      [1, 2, 3, 9] := by
  have h := addChunks_in_order_ok ⟨4, 0, [9, 9, 9, 9]⟩
    [PjRtChunk.mk [1, 2], PjRtChunk.mk [3]] 2 rfl (by decide) (by decide)
  exact ⟨by decide, h.1, h.2.1.trans (by decide), h.2.2.trans (by decide)⟩

/-- C4: for every payload and every chunking of it (covering payload sizes
0, 1, several chunks, and exactly the destination capacity: the fresh
destination is sized exactly to the payload), staging the payload
host-to-device through the chunked transfer path succeeds and reading the
device buffer back via ToLiteral yields exactly the original bytes, with no
reordering and no truncation. -/
theorem chunked_roundtrip (payload : List Nat) (cs : List PjRtChunk)
    (d : TransferDestination)
    (hflat : chunksFlat cs = payload)
    (hw : d.bytes_written = 0)
    (hcap : d.capacity_bytes = payload.length)
    (hlen : d.backing_buffer.length = d.capacity_bytes) :
    (addChunks d cs).2 = Except.ok () ∧
    toLiteralBytes (addChunks d cs).1 = payload := by
  obtain ⟨cap, bw, buf⟩ := d
  simp only at hw hcap hlen
  subst hw hcap
  have htot : chunksTotal cs = payload.length := by
    rw [chunksTotal_eq_length_flat, hflat]
  have h := addChunks_go cs payload.length [] buf (by simp [htot])
    (by simpa using hlen)
  simp only [List.length_nil, List.nil_append] at h
  rw [h]
  constructor
  · rfl
  · simp [toLiteralBytes, htot, hflat, ← hlen, List.drop_length]

/-- C4 witness: the two-float payload of the SendRecvChunked test (values
5, 6 delivered as two one-element chunks) round-trips exactly through a
destination of capacity 2. -/
theorem chunked_roundtrip_witness :
    chunksFlat [PjRtChunk.mk [5], PjRtChunk.mk [6]] = [5, 6] ∧
    (addChunks ⟨2, 0, [0, 0]⟩ [PjRtChunk.mk [5], PjRtChunk.mk [6]]).2 =
      Except.ok () ∧
    toLiteralBytes
        (addChunks ⟨2, 0, [0, 0]⟩ [PjRtChunk.mk [5], PjRtChunk.mk [6]]).1 =
      [5, 6] := by
  have h := chunked_roundtrip [5, 6] [PjRtChunk.mk [5], PjRtChunk.mk [6]]
    ⟨2, 0, [0, 0]⟩ (by decide) rfl rfl rfl
  exact ⟨by decide, h.1, h.2⟩

/-- Modelled from the spec: readiness state of an AsyncBufferHandle. -/
inductive Readiness where
  | Pending
  | Ready
  | Failed
  deriving Repr, DecidableEq

/-- Modelled from the spec: an AsyncBufferHandle records its readiness state
and the ordered sequence of completion observers registered while Pending.
Observers are identified by numbers standing for the caller callbacks. -/
structure AsyncBufferHandle where
  readiness_state : Readiness
  pending_observers : List Nat
  deriving Repr, DecidableEq

/-- Fresh handle created when a destination slot is reserved. -/
def freshHandle : AsyncBufferHandle := ⟨Readiness.Pending, []⟩

/-- Modelled from the spec: RegisterObserver queues the callback while the
handle is Pending; after the handle has settled it invokes the callback
immediately.  The second component lists the callbacks fired by the call. -/
def AsyncBufferHandle.registerObserver (h : AsyncBufferHandle) (c : Nat) :
    AsyncBufferHandle × List Nat :=
  match h.readiness_state with
  | Readiness.Pending =>
      ({ h with pending_observers := h.pending_observers ++ [c] }, [])
  | _ => (h, [c])

/-- Modelled from the spec: MarkReady transitions a Pending handle to Ready,
firing all pending observers in registration order and discarding them; on a
handle that has already settled it is a guarded no-op. -/
def AsyncBufferHandle.markReady (h : AsyncBufferHandle) :
    AsyncBufferHandle × List Nat :=
  match h.readiness_state with
  | Readiness.Pending => (⟨Readiness.Ready, []⟩, h.pending_observers)
  | _ => (h, [])

/-- Modelled from the spec: MarkFailed is MarkReady's failure analogue. -/
def AsyncBufferHandle.markFailed (h : AsyncBufferHandle) :
    AsyncBufferHandle × List Nat :=
  match h.readiness_state with
  | Readiness.Pending => (⟨Readiness.Failed, []⟩, h.pending_observers)
  | _ => (h, [])

/-- Operations a client may perform on one AsyncBufferHandle. -/
inductive HandleOp where
  | register : Nat → HandleOp
  | ready : HandleOp
  | failed : HandleOp
  deriving Repr, DecidableEq

/-- Apply one operation, returning the new handle and the callbacks fired. -/
def applyOp (h : AsyncBufferHandle) : HandleOp → AsyncBufferHandle × List Nat
  | HandleOp.register c => h.registerObserver c
  | HandleOp.ready => h.markReady
  | HandleOp.failed => h.markFailed

/-- Run a sequence of operations, concatenating the fired callbacks in the
order they were invoked. -/
def runOps (h : AsyncBufferHandle) : List HandleOp → AsyncBufferHandle × List Nat
  | [] => (h, [])
  | op :: rest =>
    ((runOps (applyOp h op).1 rest).1,
      (applyOp h op).2 ++ (runOps (applyOp h op).1 rest).2)

/-- Callbacks registered by a sequence of operations, in registration order. -/
def regs : List HandleOp → List Nat
  | [] => []
  | HandleOp.register c :: rest => c :: regs rest
  | _ :: rest => regs rest

/-- Readiness requested by the first settle operation of the sequence. -/
def firstMark : List HandleOp → Option Readiness
  | [] => none
  | HandleOp.ready :: _ => some Readiness.Ready
  | HandleOp.failed :: _ => some Readiness.Failed
  | HandleOp.register _ :: rest => firstMark rest

/-- Does the sequence contain a settle operation at all? -/
def hasMark (ops : List HandleOp) : Bool := (firstMark ops).isSome

theorem settled_registerObserver (h : AsyncBufferHandle) (c : Nat)
    (hs : h.readiness_state ≠ Readiness.Pending) :
    h.registerObserver c = (h, [c]) := by
  unfold AsyncBufferHandle.registerObserver
  cases hr : h.readiness_state with
  | Pending => exact absurd hr hs
  | Ready => rfl
  | Failed => rfl

/-- On a settled handle, every run is a sequence of immediate observer fires:
the handle never changes and the fired callbacks are exactly the registered
ones in order. -/
theorem runOps_settled (ops : List HandleOp) :
    ∀ (h : AsyncBufferHandle), h.readiness_state ≠ Readiness.Pending →
    runOps h ops = (h, regs ops) := by
  induction ops with
  | nil => intro h hs; rfl
  | cons op rest ih =>
    intro h hs
    cases op with
    | register c =>
      have hreg := settled_registerObserver h c hs
      simp [runOps, applyOp, hreg, ih h hs, regs]
    | ready =>
      have hmr : h.markReady = (h, []) := by
        unfold AsyncBufferHandle.markReady
        cases hr : h.readiness_state with
        | Pending => exact absurd hr hs
        | Ready => rfl
        | Failed => rfl
      simp [runOps, applyOp, hmr, ih h hs, regs]
    | failed =>
      have hmf : h.markFailed = (h, []) := by
        unfold AsyncBufferHandle.markFailed
        cases hr : h.readiness_state with
        | Pending => exact absurd hr hs
        | Ready => rfl
        | Failed => rfl
      simp [runOps, applyOp, hmf, ih h hs, regs]

/-- On a Pending handle, a run containing a settle operation fires the
pending observers plus every registered callback exactly once, in order,
discards them, and ends in the state named by the first settle operation:
later settle attempts are guarded no-ops. -/
theorem runOps_pending (ops : List HandleOp) :
    ∀ (h : AsyncBufferHandle), h.readiness_state = Readiness.Pending →
    hasMark ops = true →
    (runOps h ops).2 = h.pending_observers ++ regs ops ∧
    (runOps h ops).1.pending_observers = [] ∧
    some (runOps h ops).1.readiness_state = firstMark ops := by
  induction ops with
  | nil => intro h hp hm; simp [hasMark, firstMark] at hm
  | cons op rest ih =>
    intro h hp hm
    cases op with
    | register c =>
      have hreg : h.registerObserver c =
          ({ h with pending_observers := h.pending_observers ++ [c] }, []) := by
        unfold AsyncBufferHandle.registerObserver
        rw [hp]
      have hm2 : hasMark rest = true := by
        simpa [hasMark, firstMark] using hm
      have hrec := ih { h with pending_observers := h.pending_observers ++ [c] }
        (by simpa using hp) hm2
      simp [runOps, applyOp, hreg, regs, firstMark]
      refine ⟨?_, hrec.2.1, hrec.2.2⟩
      rw [hrec.1]
      simp
    | ready =>
      have hmr : h.markReady = (⟨Readiness.Ready, []⟩, h.pending_observers) := by
        unfold AsyncBufferHandle.markReady
        rw [hp]
      have hrest := runOps_settled rest ⟨Readiness.Ready, []⟩ (by simp)
      simp [runOps, applyOp, hmr, hrest, regs, firstMark]
    | failed =>
      have hmf : h.markFailed = (⟨Readiness.Failed, []⟩, h.pending_observers) := by
        unfold AsyncBufferHandle.markFailed
        rw [hp]
      have hrest := runOps_settled rest ⟨Readiness.Failed, []⟩ (by simp)
      simp [runOps, applyOp, hmf, hrest, regs, firstMark]

theorem firstMark_ne_pending (ops : List HandleOp) :
    firstMark ops ≠ some Readiness.Pending := by
  induction ops with
  | nil => simp [firstMark]
  | cons op rest ih => cases op <;> simp [firstMark, ih]

/-- C6: starting from a fresh AsyncBufferHandle, any operation sequence
containing a settle transitions exactly once, to the state named by the
first settle operation (later settles are guarded no-ops); across the run
every registered observer is fired exactly once, in registration order, and
the pending list is discarded; moreover registering a further observer once
the handle has settled fires that callback immediately. -/
theorem asyncBufferHandle_observer_contract (ops : List HandleOp) (c : Nat)
    (hm : hasMark ops = true) :
    (runOps freshHandle ops).2 = regs ops ∧
    (runOps freshHandle ops).1.pending_observers = [] ∧
    some (runOps freshHandle ops).1.readiness_state = firstMark ops ∧
    (runOps freshHandle ops).1.registerObserver c =
      ((runOps freshHandle ops).1, [c]) := by
  have h := runOps_pending ops freshHandle rfl hm
  have hset : (runOps freshHandle ops).1.readiness_state ≠ Readiness.Pending := by
    intro hcon
    have h2 := h.2.2
    rw [hcon] at h2
    exact firstMark_ne_pending ops h2.symm
  refine ⟨?_, h.2.1, h.2.2, settled_registerObserver _ c hset⟩
  have := h.1
  simpa [freshHandle] using this

/-- C6 witness: a run that registers observer 1, settles Ready, registers
observer 2 (fired immediately) and attempts a second settle (ignored); the
fired sequence is the registration order, the final state is Ready, and a
later registration of observer 7 fires at once. -/
theorem asyncBufferHandle_observer_contract_witness :
    hasMark [HandleOp.register 1, HandleOp.ready, HandleOp.register 2,
        HandleOp.failed] = true ∧
    (runOps freshHandle [HandleOp.register 1, HandleOp.ready,
        HandleOp.register 2, HandleOp.failed]).2 = [1, 2] ∧
    (runOps freshHandle [HandleOp.register 1, HandleOp.ready,
        HandleOp.register 2, HandleOp.failed]).1.pending_observers = [] ∧
    some (runOps freshHandle [HandleOp.register 1, HandleOp.ready,
        HandleOp.register 2, HandleOp.failed]).1.readiness_state =
      some Readiness.Ready ∧
    (runOps freshHandle [HandleOp.register 1, HandleOp.ready,
        HandleOp.register 2, HandleOp.failed]).1.registerObserver 7 =
      ((runOps freshHandle [HandleOp.register 1, HandleOp.ready,
          HandleOp.register 2, HandleOp.failed]).1, [7]) := by
  have h := asyncBufferHandle_observer_contract
    [HandleOp.register 1, HandleOp.ready, HandleOp.register 2,
      HandleOp.failed] 7 (by decide)
  exact ⟨by decide, h.1.trans (by decide), h.2.1, h.2.2.1.trans (by decide),
    h.2.2.2⟩

/-- Modelled from the spec: a freshly reserved destination slot, a
zero-initialised device buffer of the slot's capacity. -/
def freshDestination (capacity : Nat) : TransferDestination :=
  ⟨capacity, 0, List.replicate capacity 0⟩

/-- SizeMismatch error text: the transfer settled with fewer bytes than the
destination shape requires. -/
def sizeMismatchMessage (got expected : Nat) : String :=
  "transfer settled with " ++ toString got ++
    " bytes, destination requires " ++ toString expected

deriving instance DecidableEq for Except

/-- Events observable while one slot of a TransferManager batch settles. -/
inductive TransferEvent where
  | OnDone : Except String Unit → TransferEvent
  | HandleMark : Readiness → TransferEvent
  deriving Repr, DecidableEq

/-- Modelled from the spec: TransferRawDataToBuffer and
TransferLiteralToBuffer stage the whole payload (internally as a chunk) into
the slot's fresh destination, then call on_done exactly once with success or
the device-side error, and separately mark the slot's handle Ready/Failed. -/
def transferRawDataEvents (payload : List Nat) (capacity : Nat) :
    List TransferEvent :=
  match addChunks (freshDestination capacity) [⟨payload⟩] with
  | (d, Except.ok _) =>
      if d.bytes_written = capacity then
        [TransferEvent.OnDone (Except.ok ()),
          TransferEvent.HandleMark Readiness.Ready]
      else
        [TransferEvent.OnDone
            (Except.error (sizeMismatchMessage d.bytes_written capacity)),
          TransferEvent.HandleMark Readiness.Failed]
  | (_, Except.error e) =>
      [TransferEvent.OnDone (Except.error e),
        TransferEvent.HandleMark Readiness.Failed]

/-- Number of on_done invocations recorded in a slot's event list. -/
def countOnDone : List TransferEvent → Nat
  | [] => 0
  | TransferEvent.OnDone _ :: rest => countOnDone rest + 1
  | TransferEvent.HandleMark _ :: rest => countOnDone rest

/-- Number of handle markings recorded in a slot's event list. -/
def countMark : List TransferEvent → Nat
  | [] => 0
  | TransferEvent.HandleMark _ :: rest => countMark rest + 1
  | TransferEvent.OnDone _ :: rest => countMark rest

/-- Replay the handle markings of a slot's event list on its handle. -/
def applyTransferEvent (h : AsyncBufferHandle) :
    TransferEvent → AsyncBufferHandle
  | TransferEvent.HandleMark Readiness.Ready => (h.markReady).1
  | TransferEvent.HandleMark Readiness.Failed => (h.markFailed).1
  | TransferEvent.HandleMark Readiness.Pending => h
  | TransferEvent.OnDone _ => h

/-- State of the slot's handle once its transfer has settled. -/
def handleAfter (tr : List TransferEvent) : AsyncBufferHandle :=
  tr.foldl applyTransferEvent freshHandle

/-- Number of immediate fires when callback `c` is registered on the slot's
handle after the transfer settled (this is what a ToLiteral completion
callback or an OnReady callback sees). -/
def firesOn (tr : List TransferEvent) (c : Nat) : Nat :=
  ((handleAfter tr).registerObserver c).2.length

/-- Modelled from the spec: the batch stages every index through its own
transfer; indices are independent. -/
def batchTransferEvents (payloads : List (List Nat)) (caps : List Nat) :
    List (List TransferEvent) :=
  List.zipWith transferRawDataEvents payloads caps

theorem transferRawDataEvents_shape (payload : List Nat) (capacity : Nat) :
    ∃ s m, m ≠ Readiness.Pending ∧
      transferRawDataEvents payload capacity =
        [TransferEvent.OnDone s, TransferEvent.HandleMark m] := by
  unfold transferRawDataEvents
  rcases hr : addChunks (freshDestination capacity) [⟨payload⟩] with ⟨d, r⟩
  cases r with
  | ok u =>
    by_cases hd : d.bytes_written = capacity
    · exact ⟨Except.ok (), Readiness.Ready, by simp, by simp [hd]⟩
    · exact ⟨Except.error (sizeMismatchMessage d.bytes_written capacity),
        Readiness.Failed, by simp, by simp [hd]⟩
  | error e => exact ⟨Except.error e, Readiness.Failed, by simp, rfl⟩

theorem countOnDone_transfer (payload : List Nat) (capacity : Nat) :
    countOnDone (transferRawDataEvents payload capacity) = 1 := by
  obtain ⟨s, m, hm, heq⟩ := transferRawDataEvents_shape payload capacity
  rw [heq]
  rfl

theorem countMark_transfer (payload : List Nat) (capacity : Nat) :
    countMark (transferRawDataEvents payload capacity) = 1 := by
  obtain ⟨s, m, hm, heq⟩ := transferRawDataEvents_shape payload capacity
  rw [heq]
  rfl

theorem handleAfter_transfer_settled (payload : List Nat) (capacity : Nat) :
    (handleAfter (transferRawDataEvents payload capacity)).readiness_state ≠
      Readiness.Pending := by
  obtain ⟨s, m, hm, heq⟩ := transferRawDataEvents_shape payload capacity
  rw [heq]
  cases m with
  | Pending => exact absurd rfl hm
  | Ready =>
    simp [handleAfter, applyTransferEvent, AsyncBufferHandle.markReady,
      freshHandle]
  | Failed =>
    simp [handleAfter, applyTransferEvent, AsyncBufferHandle.markFailed,
      freshHandle]

theorem firesOn_transfer (payload : List Nat) (capacity : Nat) (c : Nat) :
    firesOn (transferRawDataEvents payload capacity) c = 1 := by
  have h := handleAfter_transfer_settled payload capacity
  unfold firesOn
  rw [settled_registerObserver _ c h]
  rfl

theorem batch_getD (payloads : List (List Nat)) :
    ∀ (caps : List Nat) (i : Nat), i < payloads.length → i < caps.length →
    (batchTransferEvents payloads caps).getD i [] =
      transferRawDataEvents (payloads.getD i []) (caps.getD i 0) := by
  induction payloads with
  | nil => intro caps i h1 h2; simp at h1
  | cons p ps ih =>
    intro caps i h1 h2
    cases caps with
    | nil => simp at h2
    | cons cap cs =>
      cases i with
      | zero => rfl
      | succ j =>
        have := ih cs j (by simpa using h1) (by simpa using h2)
        simpa [batchTransferEvents, List.zipWith] using this

theorem sum_countOnDone (payloads : List (List Nat)) :
    ∀ (caps : List Nat), caps.length = payloads.length →
    ((batchTransferEvents payloads caps).map countOnDone).sum =
      payloads.length := by
  induction payloads with
  | nil => intro caps h; cases caps <;> simp_all [batchTransferEvents]
  | cons p ps ih =>
    intro caps h
    cases caps with
    | nil => simp at h
    | cons cap cs =>
      have h2 := ih cs (by simpa using h)
      simp only [batchTransferEvents, List.zipWith_cons_cons, List.map_cons,
        List.sum_cons, countOnDone_transfer, List.length_cons] at h2 ⊢
      omega

theorem sum_firesOn (payloads : List (List Nat)) (c : Nat) :
    ∀ (caps : List Nat), caps.length = payloads.length →
    ((batchTransferEvents payloads caps).map (fun tr => firesOn tr c)).sum =
      payloads.length := by
  induction payloads with
  | nil => intro caps h; cases caps <;> simp_all [batchTransferEvents]
  | cons p ps ih =>
    intro caps h
    cases caps with
    | nil => simp at h
    | cons cap cs =>
      have h2 := ih cs (by simpa using h)
      simp only [batchTransferEvents, List.zipWith_cons_cons, List.map_cons,
        List.sum_cons, firesOn_transfer, List.length_cons] at h2 ⊢
      omega

/-- C5: for every batch staged through the TransferManager (one payload and
one capacity per index) each index's on_done callback is invoked exactly
once, its handle receives exactly one marking and ends Ready or Failed, the
events of index i are exactly the transfer of index i's own payload (indices
are independent: no index's completion depends on another's), and once all
transfers settle the total on_done count and the counts of fires seen by the
per-buffer ToLiteral and OnReady callbacks each equal the number of staged
buffers. -/
theorem transferManager_batch_contract (payloads : List (List Nat))
    (caps : List Nat) (i cb1 cb2 : Nat)
    (hlen : caps.length = payloads.length) (hi : i < payloads.length) :
    (batchTransferEvents payloads caps).length = payloads.length ∧
    (batchTransferEvents payloads caps).getD i [] =
      transferRawDataEvents (payloads.getD i []) (caps.getD i 0) ∧
    countOnDone ((batchTransferEvents payloads caps).getD i []) = 1 ∧
    countMark ((batchTransferEvents payloads caps).getD i []) = 1 ∧
    (handleAfter
        ((batchTransferEvents payloads caps).getD i [])).readiness_state ≠
      Readiness.Pending ∧
    ((batchTransferEvents payloads caps).map countOnDone).sum =
      payloads.length ∧
    ((batchTransferEvents payloads caps).map (fun tr => firesOn tr cb1)).sum =
      payloads.length ∧
    ((batchTransferEvents payloads caps).map (fun tr => firesOn tr cb2)).sum =
      payloads.length := by
  have hg := batch_getD payloads caps i hi (by omega)
  refine ⟨?_, hg, ?_, ?_, ?_, sum_countOnDone payloads caps hlen,
    sum_firesOn payloads cb1 caps hlen, sum_firesOn payloads cb2 caps hlen⟩
  · simp [batchTransferEvents, hlen]
  · rw [hg]; exact countOnDone_transfer _ _
  · rw [hg]; exact countMark_transfer _ _
  · rw [hg]; exact handleAfter_transfer_settled _ _

/-- C5 witness: the four buffers of the FromHostAsync test (payload sizes 1
to 4, capacities matching); index 2 checked explicitly, total callback
counts equal 4. -/
theorem transferManager_batch_contract_witness :
    ([1, 2, 3, 4] : List Nat).length =
      ([[10], [11, 12], [13, 14, 15], [16, 17, 18, 19]] :
        List (List Nat)).length ∧
    2 < ([[10], [11, 12], [13, 14, 15], [16, 17, 18, 19]] :
        List (List Nat)).length ∧
    countOnDone
        ((batchTransferEvents [[10], [11, 12], [13, 14, 15], [16, 17, 18, 19]]
            [1, 2, 3, 4]).getD 2 []) = 1 ∧
    countMark
        ((batchTransferEvents [[10], [11, 12], [13, 14, 15], [16, 17, 18, 19]]
            [1, 2, 3, 4]).getD 2 []) = 1 ∧
    ((batchTransferEvents [[10], [11, 12], [13, 14, 15], [16, 17, 18, 19]]
        [1, 2, 3, 4]).map countOnDone).sum = 4 ∧
    ((batchTransferEvents [[10], [11, 12], [13, 14, 15], [16, 17, 18, 19]]
        [1, 2, 3, 4]).map (fun tr => firesOn tr 0)).sum = 4 ∧
    ((batchTransferEvents [[10], [11, 12], [13, 14, 15], [16, 17, 18, 19]]
        [1, 2, 3, 4]).map (fun tr => firesOn tr 1)).sum = 4 := by
  have h := transferManager_batch_contract
    [[10], [11, 12], [13, 14, 15], [16, 17, 18, 19]] [1, 2, 3, 4] 2 0 1
    (by decide) (by decide)
  exact ⟨by decide, by decide, h.2.2.1, h.2.2.2.1,
    h.2.2.2.2.2.1.trans (by decide), h.2.2.2.2.2.2.1.trans (by decide),
    h.2.2.2.2.2.2.2.trans (by decide)⟩

/-- Modelled from the spec: states of a TransferCoordinator. -/
inductive CoordState where
  | Idle
  | AwaitingHandler
  | Streaming
  | Completed
  | Failed
  deriving Repr, DecidableEq

/-- Outcome of one execution holding a paired send/recv: the engine's final
status and the terminal state of each coordinator. -/
structure ExecOutcome where
  ok : Bool
  message : String
  send_state : CoordState
  recv_state : CoordState
  deriving Repr, DecidableEq

/-- Modelled from the spec: the recv half of a pair.  The handler pushes its
chunks into the destination stream; the coordinator latches the first stream
failure, then the handler's terminal status, then checks that the
destination reached the expected size. -/
def runRecvSide (chunks : List PjRtChunk) (hstatus : Except String Unit)
    (dest : TransferDestination) : TransferDestination × Except String Unit :=
  match addChunks dest chunks with
  | (d, Except.error e) => (d, Except.error e)
  | (d, Except.ok _) =>
    match hstatus with
    | Except.error e => (d, Except.error e)
    | Except.ok _ =>
      if d.bytes_written = d.capacity_bytes then (d, Except.ok ())
      else
        (d, Except.error (sizeMismatchMessage d.bytes_written d.capacity_bytes))

/-- Modelled from the spec: executing a program whose send (channel A) is
chained before its paired recv (channel B).  The send handler is invoked on
the produced chunk; on a handler error the coordinator mirrors the failure
to the paired recv coordinator, so the recv side settles instead of waiting,
and the execution reports the failure through the normal result status with
the handler's error text propagated verbatim. -/
def runSendRecvPaired (sendHandler : PjRtChunk → Except String Unit)
    (sendData : PjRtChunk) (recvChunks : List PjRtChunk)
    (recvStatus : Except String Unit) (recvDest : TransferDestination) :
    ExecOutcome :=
  match sendHandler sendData with
  | Except.error e => ⟨false, e, CoordState.Failed, CoordState.Failed⟩
  | Except.ok _ =>
    match runRecvSide recvChunks recvStatus recvDest with
    | (_, Except.error e) =>
        ⟨false, e, CoordState.Completed, CoordState.Failed⟩
    | (_, Except.ok _) =>
        ⟨true, "", CoordState.Completed, CoordState.Completed⟩

/-- C1: whenever the send handler of a paired send/recv execution returns an
error, the execution completes with a failure status whose message contains
the handler's error text, and the paired recv coordinator is settled
(Completed or Failed) rather than left blocked waiting. -/
theorem send_error_no_deadlock (sendHandler : PjRtChunk → Except String Unit)
    (sendData : PjRtChunk) (recvChunks : List PjRtChunk)
    (recvStatus : Except String Unit) (recvDest : TransferDestination)
    (e : String) (hs : sendHandler sendData = Except.error e) :
    (runSendRecvPaired sendHandler sendData recvChunks recvStatus
        recvDest).ok = false ∧
    strContainsSub (runSendRecvPaired sendHandler sendData recvChunks
        recvStatus recvDest).message e = true ∧
    ((runSendRecvPaired sendHandler sendData recvChunks recvStatus
        recvDest).recv_state = CoordState.Completed ∨
      (runSendRecvPaired sendHandler sendData recvChunks recvStatus
        recvDest).recv_state = CoordState.Failed) := by
  simp [runSendRecvPaired, hs, strContainsSub_refl]

/-- C1 witness: the SendErrorNoDeadLock scenario, a send handler that always
fails with the text the test asserts on; the execution fails with that text
and the recv coordinator is settled. -/
theorem send_error_no_deadlock_witness :
    (fun _ : PjRtChunk => Except.error "Uh-oh, can send chunk to host")
        (PjRtChunk.mk [2, 3]) =
      (Except.error "Uh-oh, can send chunk to host" : Except String Unit) ∧
    (runSendRecvPaired
        (fun _ => Except.error "Uh-oh, can send chunk to host")
        (PjRtChunk.mk [2, 3]) [] (Except.ok ()) (freshDestination 8)).ok =
      false ∧
    strContainsSub
        (runSendRecvPaired
          (fun _ => Except.error "Uh-oh, can send chunk to host")
          (PjRtChunk.mk [2, 3]) [] (Except.ok ()) (freshDestination 8)).message
        "Uh-oh, can send chunk to host" = true ∧
    (runSendRecvPaired
        (fun _ => Except.error "Uh-oh, can send chunk to host")
        (PjRtChunk.mk [2, 3]) [] (Except.ok ())
        (freshDestination 8)).recv_state = CoordState.Failed := by
  have h := send_error_no_deadlock
    (fun _ => Except.error "Uh-oh, can send chunk to host")
    (PjRtChunk.mk [2, 3]) [] (Except.ok ()) (freshDestination 8)
    "Uh-oh, can send chunk to host" rfl
  exact ⟨rfl, h.1, h.2.1, rfl⟩

/-- Modelled from the spec: an async buffer jointly owned by the caller and
the transfer subsystem; the backing storage stays alive while either holder
remains (longest-holder lifetime rule). -/
structure SharedBuffer where
  caller_ref : Bool
  transfer_pending : Bool
  storage : Option (List Nat)
  deriving Repr, DecidableEq

/-- Free the storage once no holder remains. -/
def collectBuffer (b : SharedBuffer) : SharedBuffer :=
  if b.caller_ref || b.transfer_pending then b else { b with storage := none }

/-- Modelled from the spec: staging a payload creates a buffer held by both
the caller and the pending transfer. -/
def stageBuffer (payload : List Nat) : SharedBuffer :=
  ⟨true, true, some payload⟩

/-- Modelled from the spec: the caller drops its reference early. -/
def releaseCallerRef (b : SharedBuffer) : SharedBuffer :=
  collectBuffer { b with caller_ref := false }

/-- Modelled from the spec: completion of the pending ToLiteral transfer
reads the storage (if still alive) into the completion callback, then drops
the subsystem's hold. -/
def completeToLiteral (b : SharedBuffer) : SharedBuffer × Option (List Nat) :=
  match b.storage with
  | some data => (collectBuffer { b with transfer_pending := false }, some data)
  | none => (collectBuffer { b with transfer_pending := false }, none)

/-- C7: for every pending transfer whose caller releases its buffer
reference before completion, the subsystem's hold keeps the backing storage
alive until completion fires, so the completion callback is still invoked
with the staged bytes; only after completion, with both holds gone, is the
storage freed. -/
theorem shared_ownership_keeps_storage_alive (payload : List Nat) :
    (completeToLiteral (releaseCallerRef (stageBuffer payload))).2 =
      some payload ∧
    (completeToLiteral (releaseCallerRef (stageBuffer payload))).1.storage =
      none := by
  simp [stageBuffer, releaseCallerRef, collectBuffer, completeToLiteral]

/-- Modelled from the spec: slot-state errors of the TransferManager. -/
inductive RetrieveError where
  | AlreadyRetrieved
  | OutOfRange
  deriving Repr, DecidableEq

/-- Modelled from the spec: a TransferManager batch holds one consumable
slot per created buffer, each carrying the slot's AsyncBufferHandle. -/
structure TransferManager where
  slots : List (Option AsyncBufferHandle)
  deriving Repr, DecidableEq

/-- Modelled from the spec: RetrieveBuffer returns the slot's handle and
consumes the slot; retrieving the same index again is a state error. -/
def TransferManager.retrieveBuffer (m : TransferManager) (i : Nat) :
    Except RetrieveError (AsyncBufferHandle × TransferManager) :=
  match m.slots[i]? with
  | none => Except.error RetrieveError.OutOfRange
  | some none => Except.error RetrieveError.AlreadyRetrieved
  | some (some h) => Except.ok (h, ⟨m.slots.set i none⟩)

/-- C8: for every batch and every index still holding its handle, the first
RetrieveBuffer call returns that handle and consumes the slot, and a second
RetrieveBuffer on the same index fails with the AlreadyRetrieved state error
rather than returning a handle. -/
theorem retrieveBuffer_consumes (m : TransferManager) (i : Nat)
    (h : AsyncBufferHandle) (hs : m.slots[i]? = some (some h)) :
    m.retrieveBuffer i =
      Except.ok (h, TransferManager.mk (m.slots.set i none)) ∧
    (TransferManager.mk (m.slots.set i none)).retrieveBuffer i =
      Except.error RetrieveError.AlreadyRetrieved := by
  have hlt : i < m.slots.length := by
    by_contra hge
    rw [List.getElem?_eq_none (by omega)] at hs
    cases hs
  constructor
  · unfold TransferManager.retrieveBuffer
    rw [hs]
  · unfold TransferManager.retrieveBuffer
    have hset : (m.slots.set i none)[i]? = some none := by
      rw [List.getElem?_set_self]
      simp [hlt]
    simp only [hset]

/-- C8 witness: a one-slot batch; the first retrieval returns the fresh
handle, the second fails with AlreadyRetrieved. -/
theorem retrieveBuffer_consumes_witness :
    (TransferManager.mk [some freshHandle]).slots[0]? =
      some (some freshHandle) ∧
    (TransferManager.mk [some freshHandle]).retrieveBuffer 0 =
      Except.ok (freshHandle, TransferManager.mk [none]) ∧
    (TransferManager.mk [none]).retrieveBuffer 0 =
      Except.error RetrieveError.AlreadyRetrieved := by
  have h := retrieveBuffer_consumes (TransferManager.mk [some freshHandle]) 0
    freshHandle (by decide)
  exact ⟨by decide, h.1.trans (by decide), h.2.trans (by decide)⟩

/-- Modelled from the spec: registry error taxonomy. -/
inductive RegError where
  | NotFound
  | DuplicateChannel
  deriving Repr, DecidableEq

/-- Modelled from the spec: CallbackRegistry maps a channel id to the single
handler registered for it (handlers identified by numbers). -/
structure CallbackRegistry where
  entries : List (Nat × Nat)
  deriving Repr, DecidableEq

/-- Channel ids currently registered. -/
def CallbackRegistry.channels (r : CallbackRegistry) : List Nat :=
  r.entries.map Prod.fst

/-- Modelled from the spec: Lookup by channel id during execution. -/
def CallbackRegistry.lookup (r : CallbackRegistry) (ch : Nat) :
    Except RegError Nat :=
  match r.entries.find? (fun e => e.1 == ch) with
  | some e => Except.ok e.2
  | none => Except.error RegError.NotFound

/-- Modelled from the spec: Register is write-once per channel id within a
run; registering an already-present channel id fails. -/
def CallbackRegistry.registerHandler (r : CallbackRegistry) (ch hd : Nat) :
    Except RegError CallbackRegistry :=
  match r.entries.find? (fun e => e.1 == ch) with
  | some _ => Except.error RegError.DuplicateChannel
  | none => Except.ok ⟨(ch, hd) :: r.entries⟩

/-- Register a run's handler table in order, during setup. -/
def setupFrom (r : CallbackRegistry) :
    List (Nat × Nat) → Except RegError CallbackRegistry
  | [] => Except.ok r
  | (ch, hd) :: rest =>
    match r.registerHandler ch hd with
    | Except.error e => Except.error e
    | Except.ok r2 => setupFrom r2 rest

/-- Build the run-scoped registry from the handler table, at setup time. -/
def setupRegistry (table : List (Nat × Nat)) :
    Except RegError CallbackRegistry :=
  setupFrom ⟨[]⟩ table

/-- Modelled from the spec: a run registers its whole table at setup and
then execution only performs lookups; no registration happens mid-run, so a
setup failure aborts before any transfer runs. -/
def runExecution (table : List (Nat × Nat)) (queries : List Nat) :
    Except RegError (List (Except RegError Nat)) :=
  match setupRegistry table with
  | Except.error e => Except.error e
  | Except.ok r => Except.ok (queries.map (fun ch => r.lookup ch))

theorem find?_channels {r : CallbackRegistry} {ch : Nat} :
    (r.entries.find? (fun e => e.1 == ch)).isSome = true ↔
      ch ∈ r.channels := by
  rw [List.find?_isSome]
  unfold CallbackRegistry.channels
  simp

theorem registerHandler_mem_fails (r : CallbackRegistry) (ch hd : Nat)
    (hmem : ch ∈ r.channels) :
    r.registerHandler ch hd = Except.error RegError.DuplicateChannel := by
  unfold CallbackRegistry.registerHandler
  rcases hf : r.entries.find? (fun e => e.1 == ch) with _ | e
  · rw [← find?_channels, hf] at hmem
    simp at hmem
  · rw [hf]

theorem lookup_not_mem (r : CallbackRegistry) (ch : Nat)
    (hmem : ch ∉ r.channels) :
    r.lookup ch = Except.error RegError.NotFound := by
  unfold CallbackRegistry.lookup
  rcases hf : r.entries.find? (fun e => e.1 == ch) with _ | e
  · rw [hf]
  · exfalso
    apply hmem
    rw [← find?_channels, hf]
    rfl

theorem setupFrom_nodup (table : List (Nat × Nat)) :
    ∀ (r r2 : CallbackRegistry), r.channels.Nodup →
    setupFrom r table = Except.ok r2 → r2.channels.Nodup := by
  induction table with
  | nil =>
    intro r r2 hnd hok
    cases hok
    exact hnd
  | cons e rest ih =>
    intro r r2 hnd hok
    rcases e with ⟨ch, hd⟩
    unfold setupFrom at hok
    rcases hreg : r.registerHandler ch hd with e2 | r3
    · rw [hreg] at hok
      cases hok
    · rw [hreg] at hok
      have hch : ch ∉ r.channels := by
        intro hmem
        rw [registerHandler_mem_fails r ch hd hmem] at hreg
        cases hreg
      have hr3 : r3.channels = ch :: r.channels := by
        unfold CallbackRegistry.registerHandler at hreg
        rcases hf : r.entries.find? (fun x => x.1 == ch) with _ | x
        · rw [hf] at hreg
          cases hreg
          simp [CallbackRegistry.channels]
        · rw [hf] at hreg
          cases hreg
      exact ih r3 r2 (by rw [hr3]; exact List.Nodup.cons hch hnd) hok

theorem setupFrom_append (as bs : List (Nat × Nat)) :
    ∀ (r : CallbackRegistry),
    setupFrom r (as ++ bs) =
      match setupFrom r as with
      | Except.ok r2 => setupFrom r2 bs
      | Except.error e => Except.error e := by
  induction as with
  | nil => intro r; rfl
  | cons e rest ih =>
    intro r
    rcases e with ⟨ch, hd⟩
    simp only [List.cons_append, setupFrom]
    rcases hreg : r.registerHandler ch hd with e2 | r2
    · rfl
    · exact ih r2

/-- C9: for every run whose handler table sets up successfully, the
run-scoped registry holds at most one handler per channel id; attempting to
register an already-registered channel id again fails with DuplicateChannel,
and extending the run's table with such a duplicate makes the whole run fail
at setup time with DuplicateChannel no matter what lookups execution would
have performed (the failure never surfaces mid-execution); and Lookup of an
unregistered channel id returns NotFound. -/
theorem callbackRegistry_write_once (table : List (Nat × Nat))
    (r : CallbackRegistry) (ch hd : Nat) (queries : List Nat)
    (hok : setupRegistry table = Except.ok r) :
    r.channels.Nodup ∧
    (ch ∈ r.channels →
      r.registerHandler ch hd = Except.error RegError.DuplicateChannel) ∧
    (ch ∈ r.channels →
      runExecution (table ++ [(ch, hd)]) queries =
        Except.error RegError.DuplicateChannel) ∧
    (ch ∉ r.channels → r.lookup ch = Except.error RegError.NotFound) := by
  refine ⟨setupFrom_nodup table ⟨[]⟩ r (by simp [CallbackRegistry.channels]) hok,
    fun hmem => registerHandler_mem_fails r ch hd hmem, fun hmem => ?_,
    fun hmem => lookup_not_mem r ch hmem⟩
  unfold runExecution setupRegistry
  rw [setupFrom_append]
  unfold setupRegistry at hok
  rw [hok]
  unfold setupFrom
  rw [registerHandler_mem_fails r ch hd hmem]

/-- C9 witness: the two channels of the send/recv tests (1 and 2); setup
succeeds, registering channel 2 again fails with DuplicateChannel, a run
whose table repeats channel 2 fails at setup, and channel 3 is NotFound. -/
theorem callbackRegistry_write_once_witness :
    setupRegistry [(1, 10), (2, 20)] =
      Except.ok (CallbackRegistry.mk [(2, 20), (1, 10)]) ∧
    (CallbackRegistry.mk [(2, 20), (1, 10)]).channels.Nodup ∧
    ((2 : Nat) ∈ (CallbackRegistry.mk [(2, 20), (1, 10)]).channels →
      (CallbackRegistry.mk [(2, 20), (1, 10)]).registerHandler 2 21 =
        Except.error RegError.DuplicateChannel) ∧
    ((2 : Nat) ∈ (CallbackRegistry.mk [(2, 20), (1, 10)]).channels →
      runExecution [(1, 10), (2, 20), (2, 21)] [1, 2, 3] =
        Except.error RegError.DuplicateChannel) ∧
    ((3 : Nat) ∉ (CallbackRegistry.mk [(2, 20), (1, 10)]).channels →
      (CallbackRegistry.mk [(2, 20), (1, 10)]).lookup 3 =
        Except.error RegError.NotFound) := by
  have h2 := callbackRegistry_write_once [(1, 10), (2, 20)]
    (CallbackRegistry.mk [(2, 20), (1, 10)]) 2 21 [1, 2, 3] (by decide)
  have h3 := callbackRegistry_write_once [(1, 10), (2, 20)]
    (CallbackRegistry.mk [(2, 20), (1, 10)]) 3 21 [1, 2, 3] (by decide)
  exact ⟨by decide, h2.1, h2.2.1, fun hm => (h2.2.2.1 hm).trans (by decide),
    h3.2.2.2⟩

/-- Modelled from the spec/tests: the wire message holding a topology. -/
structure GpuTopologyProto where
  device_ids : List Int
  deriving Repr, DecidableEq

/-- Modelled from the spec/tests: GpuTopology stores the device ids it was
constructed with. -/
structure GpuTopology where
  devices_ids : List Int
  deriving Repr, DecidableEq

/-- Element-by-element copy, modelling the iterator copies performed by the
GpuTopology constructor and the proto conversions. -/
def copyIds : List Int → List Int
  | [] => []
  | x :: xs => x :: copyIds xs

/-- Accessor device_ids() of GpuTopology. -/
def GpuTopology.device_ids (t : GpuTopology) : List Int := t.devices_ids

/-- Modelled from the test GpuTopology.FromProto: builds a topology from the
proto's device_ids. -/
def GpuTopology.fromProto (msg : GpuTopologyProto) : GpuTopology :=
  ⟨copyIds msg.device_ids⟩

/-- Modelled from the test GpuTopology.ToProto: emits the topology's ids
into a fresh proto. -/
def GpuTopology.toProto (t : GpuTopology) : GpuTopologyProto :=
  ⟨copyIds t.devices_ids⟩

theorem copyIds_id (l : List Int) : copyIds l = l := by
  induction l with
  | nil => rfl
  | cons x xs ih => simp [copyIds, ih]

/-- C10: for every device id list, constructing a GpuTopology from it and
converting with ToProto yields a proto with the same ids in the same order;
FromProto of any proto yields a topology whose device_ids() equal the
proto's ids in the same order; the round trip is the identity, preserving
both the multiset and the order of the ids. -/
theorem gpuTopology_roundtrip (ids : List Int) (msg : GpuTopologyProto) :
    (GpuTopology.toProto ⟨ids⟩).device_ids = ids ∧
    (GpuTopology.fromProto msg).device_ids = msg.device_ids ∧
    (GpuTopology.fromProto (GpuTopology.toProto ⟨ids⟩)).device_ids = ids := by
  simp [GpuTopology.toProto, GpuTopology.fromProto, GpuTopology.device_ids,
    copyIds_id]

end XlaTransfer
